import Mathlib

/-!
Verification of the zride AI matching engine.

This file gives a shallow embedding of the ride-matching engine of the
zride repository (package `services` in
`backend/services/ai-matching-service/internal/application/services`, the
matching use case in `internal/application/usecases`, the domain model in
`internal/domain/models.go` and the shared error codes in
`backend/shared/errors/errors.go`), and proves properties of the embedded
definitions.

Modelling conventions:
  * Go `float64` values are idealized as real numbers (`ℝ`); float
    arithmetic is exact real arithmetic.
  * `uuid.UUID` values are modeled as naturals.  `uuid.New()` produces a
    fresh identifier; inside one scoring pass it is modeled by the position
    of the produced row, which no proved property depends on.
  * `time.Time` and `time.Duration` values are integer nanoseconds
    (`ℤ`), matching Go's `int64` nanosecond representation; `time.Now()` is
    an explicit `now : ℤ` parameter.
  * The haversine distance `CalculateDistance` is kept abstract as a
    parameter `dist : Location → Location → ℝ`; every claim proved here
    holds for an arbitrary distance function, hence in particular for the
    haversine one.
  * Store and collaborator I/O is explicit: the candidate fetch, the
    external trip creation and the notification dispatch are arguments or
    recorded effects, and store reads/writes act on association lists.
-/

namespace ZRide

/-- Geographic coordinate (`domain.Location`).  Latitude and longitude are
`float64` in Go, idealized as reals; the free-text address is kept for
fidelity to the struct shape. -/
structure Location where
  latitude : ℝ
  longitude : ℝ
  address : String

/-- Acceptable price range for a trip (`domain.PriceRange`). -/
structure PriceRange where
  minPrice : ℝ
  maxPrice : ℝ

/-- Status of a match request (`domain.MatchStatus`). -/
inductive MatchStatus where
  | pending
  | matched
  | expired
  | cancelled
deriving DecidableEq, Repr

/-- A passenger's match request (`domain.MatchRequest`). -/
structure MatchRequest where
  id : ℕ
  passengerId : ℕ
  pickupLocation : Location
  dropoffLocation : Location
  requestTime : ℤ
  maxWaitTime : ℤ
  preferredCarType : String
  maxDistance : ℝ
  priceRange : PriceRange
  status : MatchStatus
  createdAt : ℤ
  updatedAt : ℤ

/-- A candidate driver (`domain.Driver`). -/
structure Driver where
  id : ℕ
  userId : ℕ
  currentLocation : Location
  isAvailable : Bool
  carType : String
  rating : ℝ
  completedTrips : ℕ
  lastActiveTime : ℤ
  maxDistance : ℝ
  preferredAreas : List Location

/-- Status of a match result (`domain.MatchResultStatus`). -/
inductive MatchResultStatus where
  | pending
  | accepted
  | rejected
  | expired
deriving DecidableEq, Repr

/-- One scored pairing (`domain.MatchResult`). -/
structure MatchResult where
  id : ℕ
  matchRequestId : ℕ
  driverId : ℕ
  score : ℝ
  estimatedDistance : ℝ
  estimatedTime : ℤ
  estimatedPrice : ℝ
  matchTime : ℤ
  status : MatchResultStatus
  createdAt : ℤ

/-- Weights for the scoring strategies (`domain.MatchingCriteria`). -/
structure MatchingCriteria where
  distanceWeight : ℝ
  ratingWeight : ℝ
  timeWeight : ℝ
  priceWeight : ℝ
  experienceWeight : ℝ

/-- `domain.DefaultMatchingCriteria`: 0.4 / 0.2 / 0.2 / 0.1 / 0.1. -/
noncomputable def defaultMatchingCriteria : MatchingCriteria :=
  { distanceWeight := 0.4
    ratingWeight := 0.2
    timeWeight := 0.2
    priceWeight := 0.1
    experienceWeight := 0.1 }

/-- Configuration of the matching service (`domain.MatchingConfig`).  The
algorithm is a string in Go (`domain.MatchingAlgorithm`), selected by a
`switch` with a default branch, so it is kept as a `String` here. -/
structure MatchingConfig where
  algorithm : String
  maxDrivers : ℕ
  maxSearchRadius : ℝ
  minDriverRating : ℝ
  criteria : MatchingCriteria
  realTimeEnabled : Bool
  batchSize : ℕ
  timeoutDuration : ℤ

/-- The four recognized algorithm names (`domain.AlgorithmNearest` …). -/
def algorithmNearest : String := "nearest"

/-- `domain.AlgorithmWeighted`. -/
def algorithmWeighted : String := "weighted"

/-- `domain.AlgorithmML`. -/
def algorithmML : String := "ml"

/-- `domain.AlgorithmHybrid`. -/
def algorithmHybrid : String := "hybrid"

/-- `domain.DefaultMatchingConfig`. -/
noncomputable def defaultMatchingConfig : MatchingConfig :=
  { algorithm := algorithmWeighted
    maxDrivers := 10
    maxSearchRadius := 15.0
    minDriverRating := 3.0
    criteria := defaultMatchingCriteria
    realTimeEnabled := true
    batchSize := 50
    timeoutDuration := 30 * 1000000000 }

/-- Constant `BasePricePerKM` (8,000 VND per km). -/
noncomputable def basePricePerKM : ℝ := 8000.0

/-- Constant `CarTypeMotorbike` multiplier. -/
noncomputable def carTypeMotorbike : ℝ := 1.0

/-- Constant `CarTypeCar4Seat` multiplier. -/
noncomputable def carTypeCar4Seat : ℝ := 1.5

/-- Constant `CarTypeCar7Seat` multiplier. -/
noncomputable def carTypeCar7Seat : ℝ := 2.0

/-- Constant `AverageSpeedKMH` used for time estimation. -/
noncomputable def averageSpeedKMH : ℝ := 25.0

/-- Go `time.Minute` in nanoseconds. -/
def minuteNs : ℤ := 60 * 1000000000

/-- Go `time.Hour` in nanoseconds. -/
def hourNs : ℤ := 3600 * 1000000000

/-- Go's `float64 → int64` conversion truncates toward zero. -/
noncomputable def f64toInt (x : ℝ) : ℤ := if 0 ≤ x then ⌊x⌋ else ⌈x⌉

/-- `time.Duration.Minutes()`: the duration (ns) divided by 6 · 10¹⁰ as a
float. -/
noncomputable def durationMinutes (d : ℤ) : ℝ := (d : ℝ) / (60 * 1000000000)

/-- `time.Time.Hour()` for a nanosecond timestamp, in UTC: the result is
always in `[0, 23]` (`Int` division and remainder are the euclidean
ones). -/
def timeHour (t : ℤ) : ℤ := t / hourNs % 24

section MatchingService

variable (dist : Location → Location → ℝ) (now : ℤ)

/-- `EstimateTime`: `hours := distance / AverageSpeedKMH`, converted to a
`time.Duration` via `time.Duration(hours * float64(time.Hour))`, which
truncates the float product to integer nanoseconds. -/
noncomputable def estimateTime (a b : Location) : ℤ :=
  f64toInt (dist a b / averageSpeedKMH * 3600000000000)

/-- `EstimatePrice`: distance times base rate, times a car-type multiplier
selected by a `switch` whose default is the 4-seat-car multiplier, floored
at the 20,000 VND minimum fare.  The Go function's error return is always
`nil`, so it is modeled as total. -/
noncomputable def estimatePrice (a b : Location) (carType : String) : ℝ :=
  let distance := dist a b
  let basePrice := distance * basePricePerKM
  let multiplier : ℝ :=
    if carType = "motorbike" then carTypeMotorbike
    else if carType = "car_4_seat" then carTypeCar4Seat
    else if carType = "car_7_seat" then carTypeCar7Seat
    else carTypeCar4Seat
  let finalPrice := basePrice * multiplier
  if finalPrice < 20000 then 20000 else finalPrice

/-- `ScoreMatch`: the weighted-strategy score of one driver against one
request.  The Go function's error return is always `nil`, so it is modeled
as total. -/
noncomputable def scoreMatch (request : MatchRequest) (driver : Driver)
    (criteria : MatchingCriteria) : ℝ :=
  let distance := dist driver.currentLocation request.pickupLocation
  let distanceScore := 1.0 / (1.0 + distance / 10.0)
  let ratingScore := driver.rating / 5.0
  let estimated := estimateTime dist driver.currentLocation request.pickupLocation
  let timeScore := 1.0 / (1.0 + durationMinutes estimated / 30.0)
  let estimatedPrice :=
    estimatePrice dist request.pickupLocation request.dropoffLocation driver.carType
  let priceScore :=
    if request.priceRange.maxPrice > 0 then
      if estimatedPrice ≤ request.priceRange.maxPrice then
        1.0 - (estimatedPrice - request.priceRange.minPrice) /
          (request.priceRange.maxPrice - request.priceRange.minPrice)
      else 0.5
    else 1.0
  let experienceScore := min ((driver.completedTrips : ℝ) / 50.0) 1.0
  distanceScore * criteria.distanceWeight + ratingScore * criteria.ratingWeight +
    timeScore * criteria.timeWeight + priceScore * criteria.priceWeight +
    experienceScore * criteria.experienceWeight

end MatchingService

/-- Helper: map with the element's position, modeling loops that consume a
slice while generating one fresh identifier per produced row. -/
def mapWithIndex {α β : Type} (f : ℕ → α → β) : ℕ → List α → List β
  | _, [] => []
  | i, a :: l => f i a :: mapWithIndex f (i + 1) l

/-- Internal pair of the `nearestAlgorithm` loop (`driverDistance`). -/
structure DriverDistance where
  driver : Driver
  distance : ℝ

section Algorithms

variable (dist : Location → Location → ℝ) (now : ℤ)

/-- The row built for one entry of the sorted `driverDistances` slice in
`nearestAlgorithm`; `idx` is the row's position, standing in for
`uuid.New()`. -/
noncomputable def nearestResult (request : MatchRequest) (idx : ℕ)
    (dd : DriverDistance) : MatchResult :=
  { id := idx
    matchRequestId := request.id
    driverId := dd.driver.id
    score := 1.0 / (1.0 + dd.distance)
    estimatedDistance := dd.distance
    estimatedTime := estimateTime dist dd.driver.currentLocation request.pickupLocation
    estimatedPrice :=
      estimatePrice dist request.pickupLocation request.dropoffLocation dd.driver.carType
    matchTime := now
    status := .pending
    createdAt := now }

/-- The `driverDistances` slice of `nearestAlgorithm`, in input order. -/
noncomputable def driverDistances (request : MatchRequest) (drivers : List Driver) :
    List DriverDistance :=
  drivers.map fun d => ⟨d, dist d.currentLocation request.pickupLocation⟩

/-- `nearestAlgorithm`: pair each driver with its distance to the pickup,
sort ascending by distance with `sort.Slice`, and build one pending result
per driver with score `1 / (1 + distance)`.  `sort.Slice` is modeled here
by a stable insertion sort, one of the orders the Go sort contract permits;
`nearestOutputs` below captures the full contract. -/
noncomputable def nearestAlgorithm (request : MatchRequest) (drivers : List Driver) :
    List MatchResult :=
  mapWithIndex (fun i dd => nearestResult dist now request i dd) 0
    ((driverDistances dist request drivers).insertionSort fun a b => a.distance ≤ b.distance)

/-- The row built for one driver in `weightedAlgorithm` (score from
`ScoreMatch`); rows are built in input order before sorting, so `idx` is
the driver's input position. -/
noncomputable def weightedResult (request : MatchRequest) (config : MatchingConfig)
    (idx : ℕ) (driver : Driver) : MatchResult :=
  { id := idx
    matchRequestId := request.id
    driverId := driver.id
    score := scoreMatch dist request driver config.criteria
    estimatedDistance := dist driver.currentLocation request.pickupLocation
    estimatedTime := estimateTime dist driver.currentLocation request.pickupLocation
    estimatedPrice :=
      estimatePrice dist request.pickupLocation request.dropoffLocation driver.carType
    matchTime := now
    status := .pending
    createdAt := now }

/-- `weightedAlgorithm`: score every driver with `ScoreMatch` (whose error
return is always nil, so no driver is skipped), then sort descending by
score.  The Go comparator is `score_i > score_j`; any permitted output is
sorted by `fun a b => b.score ≤ a.score`, realized here by a stable
insertion sort. -/
noncomputable def weightedAlgorithm (request : MatchRequest) (drivers : List Driver)
    (config : MatchingConfig) : List MatchResult :=
  (mapWithIndex (fun i d => weightedResult dist now request config i d) 0
    drivers).insertionSort fun a b => b.score ≤ a.score

/-- Feature vector extracted per driver in `mlAlgorithm`
(`driverFeatures`). -/
structure DriverFeatures where
  driver : Driver
  distance : ℝ
  normalizedRating : ℝ
  experienceScore : ℝ
  availabilityScore : ℝ
  locationSimilarity : ℝ
  timePreference : ℝ

/-- `calculateLocationSimilarity`: best reciprocal-shaped proximity (5 km
scale) between the pickup and any preferred area, 0.5 when the driver has
none. -/
noncomputable def calculateLocationSimilarity (driver : Driver)
    (request : MatchRequest) : ℝ :=
  if driver.preferredAreas.isEmpty then 0.5
  else driver.preferredAreas.foldl
    (fun m area => max m (1.0 / (1.0 + dist area request.pickupLocation / 5.0))) 0.0

/-- `calculateTimePreference`: 0.7 when the request's hour is in 7..9 or
17..19, else 1.0. -/
noncomputable def calculateTimePreference (request : MatchRequest) : ℝ :=
  let hour := timeHour request.requestTime
  if (hour ≥ 7 ∧ hour ≤ 9) ∨ (hour ≥ 17 ∧ hour ≤ 19) then 0.7 else 1.0

/-- The features built for one driver in `mlAlgorithm`. -/
noncomputable def extractFeatures (request : MatchRequest) (driver : Driver) :
    DriverFeatures :=
  { driver := driver
    distance := dist driver.currentLocation request.pickupLocation
    normalizedRating := driver.rating / 5.0
    experienceScore := min ((driver.completedTrips : ℝ) / 100.0) 1.0
    availabilityScore := 1.0 - durationMinutes (now - driver.lastActiveTime) / 60.0
    locationSimilarity := calculateLocationSimilarity dist driver request
    timePreference := calculateTimePreference request }

/-- `calculateMLScore`: nonlinear feature combination squashed by a
logistic.  `math.Pow` and `math.Sqrt` are modeled by `Real.rpow` and
`Real.sqrt`, which agree with Go on nonnegative bases. -/
noncomputable def calculateMLScore (features : DriverFeatures)
    (criteria : MatchingCriteria) : ℝ :=
  let distanceFeature := 1.0 / (1.0 + features.distance / 10.0)
  let ratingFeature := features.normalizedRating ^ (1.5 : ℝ)
  let experienceFeature := Real.sqrt features.experienceScore
  let availabilityFeature := features.availabilityScore ^ (0.8 : ℝ)
  let ratingDistanceInteraction := ratingFeature * distanceFeature
  let experienceLocationInteraction := experienceFeature * features.locationSimilarity
  let score := distanceFeature * criteria.distanceWeight +
    ratingFeature * criteria.ratingWeight +
    experienceFeature * criteria.experienceWeight +
    availabilityFeature * 0.1 +
    features.locationSimilarity * 0.1 +
    features.timePreference * 0.05 +
    ratingDistanceInteraction * 0.1 +
    experienceLocationInteraction * 0.05
  1.0 / (1.0 + Real.exp (-5.0 * (score - 0.5)))

/-- The row built for one driver in `mlAlgorithm`, in input order. -/
noncomputable def mlResult (request : MatchRequest) (config : MatchingConfig)
    (idx : ℕ) (driver : Driver) : MatchResult :=
  { id := idx
    matchRequestId := request.id
    driverId := driver.id
    score := calculateMLScore (extractFeatures dist now request driver) config.criteria
    estimatedDistance := dist driver.currentLocation request.pickupLocation
    estimatedTime := estimateTime dist driver.currentLocation request.pickupLocation
    estimatedPrice :=
      estimatePrice dist request.pickupLocation request.dropoffLocation driver.carType
    matchTime := now
    status := .pending
    createdAt := now }

/-- `mlAlgorithm`: extract features per driver, score with
`calculateMLScore`, sort descending by score. -/
noncomputable def mlAlgorithm (request : MatchRequest) (drivers : List Driver)
    (config : MatchingConfig) : List MatchResult :=
  (mapWithIndex (fun i d => mlResult dist now request config i d) 0
    drivers).insertionSort fun a b => b.score ≤ a.score

end Algorithms

/-- Association-list lookup for stores and accumulator maps keyed by
identifiers. -/
def alookup {β : Type} : List (ℕ × β) → ℕ → Option β
  | [], _ => none
  | (k, v) :: rest, k0 => if k = k0 then some v else alookup rest k0

/-- `driverScores[id] += v` on a Go map, modeled on an association list in
first-insertion order (Go map iteration order is randomized; no property
proved here depends on the order, since the entries are re-sorted). -/
noncomputable def upsertAdd (m : List (ℕ × ℝ)) (k : ℕ) (v : ℝ) : List (ℕ × ℝ) :=
  match m with
  | [] => [(k, v)]
  | (k0, v0) :: rest =>
    if k0 = k then (k0, v0 + v) :: rest else (k0, v0) :: upsertAdd rest k v

/-- `driverResults[id] = r` on a Go map (last write wins). -/
def upsertSet (m : List (ℕ × MatchResult)) (k : ℕ) (r : MatchResult) :
    List (ℕ × MatchResult) :=
  match m with
  | [] => [(k, r)]
  | (k0, r0) :: rest =>
    if k0 = k then (k0, r) :: rest else (k0, r0) :: upsertSet rest k r

/-- One accumulation loop of `hybridAlgorithm`:
`driverScores[result.DriverID] += result.Score * w` for each result. -/
noncomputable def addScores (m : List (ℕ × ℝ)) (results : List MatchResult)
    (w : ℝ) : List (ℕ × ℝ) :=
  results.foldl (fun acc r => upsertAdd acc r.driverId (r.score * w)) m

/-- One accumulation loop of `hybridAlgorithm`:
`driverResults[result.DriverID] = result` for each result. -/
def setResults (m : List (ℕ × MatchResult)) (results : List MatchResult) :
    List (ℕ × MatchResult) :=
  results.foldl (fun acc r => upsertSet acc r.driverId r) m

/-- The `driverScores` map of `hybridAlgorithm` after its three
accumulation loops: per driver,
`0.3 · nearest + 0.4 · weighted + 0.3 · ml`. -/
noncomputable def hybridDriverScores (dist : Location → Location → ℝ) (now : ℤ)
    (request : MatchRequest) (drivers : List Driver) (config : MatchingConfig) :
    List (ℕ × ℝ) :=
  addScores
    (addScores (addScores [] (nearestAlgorithm dist now request drivers) 0.3)
      (weightedAlgorithm dist now request drivers config) 0.4)
    (mlAlgorithm dist now request drivers config) 0.3

/-- The `driverResults` map of `hybridAlgorithm` after its three loops
(last write wins, so a driver's stored row is its ml-strategy row). -/
noncomputable def hybridDriverResults (dist : Location → Location → ℝ) (now : ℤ)
    (request : MatchRequest) (drivers : List Driver) (config : MatchingConfig) :
    List (ℕ × MatchResult) :=
  setResults
    (setResults (setResults [] (nearestAlgorithm dist now request drivers))
      (weightedAlgorithm dist now request drivers config))
    (mlAlgorithm dist now request drivers config)

/-- `hybridAlgorithm`: run the three strategies on the same candidate list,
accumulate the combined per-driver scores, sort them descending with
`sort.Slice`, and emit the stored result row for each driver with its
score overwritten by the combined score. -/
noncomputable def hybridAlgorithm (dist : Location → Location → ℝ) (now : ℤ)
    (request : MatchRequest) (drivers : List Driver) (config : MatchingConfig) :
    List MatchResult :=
  ((hybridDriverScores dist now request drivers config).insertionSort
      fun a b => b.2 ≤ a.2).filterMap
    fun hs => (alookup (hybridDriverResults dist now request drivers config) hs.1).map
      fun r => { r with score := hs.2 }

section Engine

variable (dist : Location → Location → ℝ) (now : ℤ)

/-- `filterDrivers`: drop drivers below the minimum rating, with the wrong
car type when the passenger stated a preference, farther than the
passenger's maximum distance, or not active within the last five
minutes. -/
noncomputable def filterDrivers (drivers : List Driver) (request : MatchRequest)
    (config : MatchingConfig) : List Driver :=
  match drivers with
  | [] => []
  | driver :: rest =>
    if driver.rating < config.minDriverRating then
      filterDrivers rest request config
    else if request.preferredCarType ≠ "" ∧ driver.carType ≠ request.preferredCarType then
      filterDrivers rest request config
    else if dist driver.currentLocation request.pickupLocation > request.maxDistance then
      filterDrivers rest request config
    else if now - driver.lastActiveTime > 5 * minuteNs then
      filterDrivers rest request config
    else
      driver :: filterDrivers rest request config

/-- `FindMatches`, given the driver list fetched from the repository
(`GetAvailableDriversInRadius`; a fetch failure is handled by the caller in
`processMatchRequest`): filter, dispatch on the configured algorithm with a
default branch falling back to the weighted strategy, and cap the result
list at `MaxDrivers`. -/
noncomputable def findMatches (request : MatchRequest) (config : MatchingConfig)
    (drivers : List Driver) : List MatchResult :=
  let filteredDrivers := filterDrivers dist now drivers request config
  if filteredDrivers.isEmpty then []
  else
    let found :=
      if config.algorithm = algorithmNearest then
        nearestAlgorithm dist now request filteredDrivers
      else if config.algorithm = algorithmWeighted then
        weightedAlgorithm dist now request filteredDrivers config
      else if config.algorithm = algorithmML then
        mlAlgorithm dist now request filteredDrivers config
      else if config.algorithm = algorithmHybrid then
        hybridAlgorithm dist now request filteredDrivers config
      else
        weightedAlgorithm dist now request filteredDrivers config
    if found.length > config.maxDrivers then found.take config.maxDrivers else found

end Engine

/-- Error codes of `backend/shared/errors/errors.go`. -/
inductive ErrorCode where
  | invalidInput
  | notFound
  | userNotFound
  | unauthorized
  | forbidden
  | conflict
  | internalError
  | externalError
  | validationError
  | invalidOperation
  | timeout
deriving DecidableEq, Repr

/-- `AppError.HTTPStatusCode`. -/
def httpStatusCode : ErrorCode → ℕ
  | .invalidInput => 400
  | .validationError => 400
  | .notFound => 404
  | .userNotFound => 404
  | .unauthorized => 401
  | .forbidden => 403
  | .conflict => 409
  | .timeout => 408
  | .invalidOperation => 400
  | .internalError => 500
  | .externalError => 500

/-- A dispatched best-effort notification (the `NotificationService`
calls; failures are logged and ignored, so dispatch is recorded
unconditionally). -/
inductive Notification where
  | driverMatch (driverId : ℕ) (matchResultId : ℕ)
  | passengerMatch (passengerId : ℕ) (matchResultId : ℕ)
  | matchTimeout (passengerId : ℕ) (matchRequestId : ℕ)
deriving DecidableEq, Repr

/-- Payload of the external `CreateTrip` call (`domain.TripData`). -/
structure TripData where
  passengerId : ℕ
  driverId : ℕ
  pickupLocation : Location
  dropoffLocation : Location
  estimatedPrice : ℝ
  estimatedTime : ℤ
  estimatedDistance : ℝ

/-- The trip returned by the trip collaborator. -/
structure Trip where
  id : ℕ
  status : String

/-- Response of `AcceptMatch` (`AcceptMatchResponse`). -/
structure AcceptMatchResponse where
  matchResultId : ℕ
  tripId : ℕ
  passengerId : ℕ
  driverId : ℕ
  estimatedTime : ℤ
  estimatedPrice : ℝ
  status : String

/-- Request body of `CreateMatchRequest` (`CreateMatchRequestDTO`). -/
structure CreateMatchRequestDTO where
  passengerId : ℕ
  pickupLocation : Location
  dropoffLocation : Location
  maxWaitTime : ℤ
  preferredCarType : String
  maxDistance : ℝ
  priceRange : PriceRange

/-- The stores the matching use case reads and writes, plus the recorded
notification dispatches.  Stores are association lists keyed by
identifier; writes that the Go code performs through repositories act on
these lists (store I/O failures are logged and ignored by the Go code and
are not modeled). -/
structure EngineState where
  requests : List (ℕ × MatchRequest)
  results : List (ℕ × MatchResult)
  drivers : List (ℕ × Driver)
  notifications : List Notification

/-- Row update (SQL `UPDATE` by primary key): replaces the value at `k` if
present, otherwise changes nothing. -/
def aupdate {β : Type} (m : List (ℕ × β)) (k : ℕ) (v : β) : List (ℕ × β) :=
  m.map fun p => if p.1 = k then (k, v) else p

/-- `MatchingUseCase.CreateMatchRequest`: validate the passenger against
the identity collaborator, build a pending request stamped `now`, insert
it (`Create` fails on a duplicate key, leaving the store unchanged), and
return it; the asynchronous match processing is a separate engine
operation. -/
def createMatchRequest (now : ℤ) (s : EngineState) (dto : CreateMatchRequestDTO)
    (newId : ℕ) (userExists : Bool) :
    EngineState × Except ErrorCode MatchRequest :=
  if userExists then
    let matchRequest : MatchRequest :=
      { id := newId
        passengerId := dto.passengerId
        pickupLocation := dto.pickupLocation
        dropoffLocation := dto.dropoffLocation
        requestTime := now
        maxWaitTime := dto.maxWaitTime
        preferredCarType := dto.preferredCarType
        maxDistance := dto.maxDistance
        priceRange := dto.priceRange
        status := .pending
        createdAt := now
        updatedAt := now }
    if (alookup s.requests newId).isSome then (s, .error .internalError)
    else ({ s with requests := s.requests ++ [(newId, matchRequest)] }, .ok matchRequest)
  else (s, .error .userNotFound)

/-- `MatchingUseCase.processMatchRequest`: the background task.  `fetched`
is the outcome of `GetAvailableDriversInRadius`; on a fetch failure
`FindMatches` returns an error, which is only logged, leaving every store
untouched.  With zero matches the request is updated to `expired` and a
timeout notification is dispatched; otherwise each result row is created,
each driver notified, and the request updated to `matched`. -/
noncomputable def processMatchRequest (dist : Location → Location → ℝ) (now : ℤ)
    (s : EngineState) (request : MatchRequest) (config : MatchingConfig)
    (fetched : Except Unit (List Driver)) : EngineState :=
  match fetched with
  | .error _ => s
  | .ok drivers =>
    let found := findMatches dist now request config drivers
    if found.isEmpty then
      { s with
        requests := aupdate s.requests request.id { request with status := .expired }
        notifications := s.notifications ++ [.matchTimeout request.passengerId request.id] }
    else
      { s with
        results := s.results ++ found.map fun m => (m.id, m)
        notifications := s.notifications ++ found.map fun m => .driverMatch m.driverId m.id
        requests := aupdate s.requests request.id
          { request with status := .matched, updatedAt := now } }

/-- First mutation of a successful accept: mark the result row
accepted. -/
noncomputable def applyResultAccepted (s : EngineState) (matchResultId : ℕ)
    (matchResult : MatchResult) : EngineState :=
  { s with results := aupdate s.results matchResultId { matchResult with status := .accepted } }

/-- Second mutation of a successful accept: set the driver unavailable.
`UpdateAvailability` on a missing driver fails, which the Go code only
logs, so it leaves the store unchanged. -/
def applyAvailabilityFalse (s : EngineState) (driverId : ℕ) : EngineState :=
  match alookup s.drivers driverId with
  | some d => { s with drivers := aupdate s.drivers driverId { d with isAvailable := false } }
  | none => s

/-- Third step of a successful accept: record the passenger
notification. -/
def applyNotifyPassenger (s : EngineState) (passengerId matchResultId : ℕ) : EngineState :=
  { s with notifications := s.notifications ++ [.passengerMatch passengerId matchResultId] }

/-- The state and response of the success path of `AcceptMatch`, applied
once the trip collaborator has returned a trip. -/
noncomputable def acceptApply (s : EngineState) (driverId matchResultId : ℕ)
    (matchResult : MatchResult) (matchRequest : MatchRequest) (trip : Trip) :
    EngineState × Except ErrorCode AcceptMatchResponse :=
  (applyNotifyPassenger
      (applyAvailabilityFalse (applyResultAccepted s matchResultId matchResult) driverId)
      matchRequest.passengerId matchResultId,
    .ok
      { matchResultId := matchResult.id
        tripId := trip.id
        passengerId := matchRequest.passengerId
        driverId := driverId
        estimatedTime := matchResult.estimatedTime
        estimatedPrice := matchResult.estimatedPrice
        status := "accepted" })

/-- `MatchingUseCase.AcceptMatch`: look up the result (a missing row is
`NotFound`), check the caller owns it (`Unauthorized`), check it is still
pending (`InvalidOperation`), look up its request (`NotFound`), call the
external trip collaborator, and only on success mark the result accepted,
flip the driver's availability (a failed availability update is only
logged) and notify the passenger.  The state is returned alongside the
response; error paths return it unchanged. -/
noncomputable def acceptMatch (s : EngineState) (driverId matchResultId : ℕ)
    (createTrip : TripData → Except Unit Trip) :
    EngineState × Except ErrorCode AcceptMatchResponse :=
  match alookup s.results matchResultId with
  | none => (s, .error .notFound)
  | some matchResult =>
    if matchResult.driverId ≠ driverId then (s, .error .unauthorized)
    else if matchResult.status ≠ .pending then (s, .error .invalidOperation)
    else
      match alookup s.requests matchResult.matchRequestId with
      | none => (s, .error .notFound)
      | some matchRequest =>
        match createTrip
          { passengerId := matchRequest.passengerId
            driverId := driverId
            pickupLocation := matchRequest.pickupLocation
            dropoffLocation := matchRequest.dropoffLocation
            estimatedPrice := matchResult.estimatedPrice
            estimatedTime := f64toInt (durationMinutes matchResult.estimatedTime)
            estimatedDistance := matchResult.estimatedDistance } with
        | .error _ => (s, .error .internalError)
        | .ok trip => acceptApply s driverId matchResultId matchResult matchRequest trip

/-- One engine operation, with its external inputs (fresh id, current
time, collaborator outcomes) made explicit. -/
inductive EngineOp where
  | createRequest (dto : CreateMatchRequestDTO) (newId : ℕ) (now : ℤ) (userExists : Bool)
  | processRequest (requestId : ℕ) (dist : Location → Location → ℝ) (now : ℤ)
      (config : MatchingConfig) (fetched : Except Unit (List Driver))
  | accept (driverId matchResultId : ℕ) (createTrip : TripData → Except Unit Trip)

/-- The state transition of one engine operation.  The background task of
`processRequest` runs on the request it was spawned for; it is a no-op on
an id that was never created. -/
noncomputable def engineStep (s : EngineState) : EngineOp → EngineState
  | .createRequest dto newId now userExists =>
    (createMatchRequest now s dto newId userExists).1
  | .processRequest requestId dist now config fetched =>
    match alookup s.requests requestId with
    | none => s
    | some request => processMatchRequest dist now s request config fetched
  | .accept driverId matchResultId createTrip =>
    (acceptMatch s driverId matchResultId createTrip).1

/-- The contract of Go's `sort.Slice` with comparator `less`: the output
is a permutation of the input in which no later element is `less` than an
earlier one.  `sort.Slice` is documented as not guaranteed to be stable,
so every such output is a permitted behavior. -/
def sortSliceOutputs {α : Type} (less : α → α → Prop) (input out : List α) : Prop :=
  input.Perm out ∧ out.Sorted fun a b => ¬ less b a

/-- The outputs `nearestAlgorithm` may produce under the `sort.Slice`
contract: some permitted sorted order of the driver-distance pairs, mapped
to result rows in that order. -/
def nearestOutputs (dist : Location → Location → ℝ) (now : ℤ)
    (request : MatchRequest) (drivers : List Driver) (out : List MatchResult) : Prop :=
  ∃ sorted : List DriverDistance,
    sortSliceOutputs (fun a b => a.distance < b.distance)
      (driverDistances dist request drivers) sorted ∧
    out = mapWithIndex (fun i dd => nearestResult dist now request i dd) 0 sorted

/-- The tie-breaking property claimed of the nearest strategy: in every
permitted output, two equally distant drivers keep the relative order
their drivers had in the input list. -/
def nearestTiesStable : Prop :=
  ∀ (dist : Location → Location → ℝ) (now : ℤ) (request : MatchRequest)
    (drivers : List Driver) (out : List MatchResult),
    nearestOutputs dist now request drivers out →
    out.Pairwise fun r1 r2 =>
      r1.estimatedDistance = r2.estimatedDistance →
      (drivers.map Driver.id).indexOf r1.driverId ≤ (drivers.map Driver.id).indexOf r2.driverId

/-- The score associated to a driver in a result list: the score of the
first row carrying that driver id (unique whenever the rows' driver ids
are duplicate-free). -/
def scoreOf (results : List MatchResult) (driverId : ℕ) : Option ℝ :=
  (results.find? fun r => r.driverId == driverId).map fun r => r.score

/-- Time of day, in nanoseconds since midnight UTC, of a nanosecond
timestamp. -/
def timeOfDayNs (t : ℤ) : ℤ := t % (24 * hourNs)

/-- Modelled from the spec, for comparison with the code: "the request
time falls within one of the two daily peak windows 07:00–09:00 or
17:00–19:00" — the time of day lies between 07:00 and 09:00 or between
17:00 and 19:00 (inclusive bounds; the witnesses used below are interior
points, so the boundary reading does not matter). -/
def inClaimedPeakWindow (t : ℤ) : Prop :=
  (7 * hourNs ≤ timeOfDayNs t ∧ timeOfDayNs t ≤ 9 * hourNs) ∨
    (17 * hourNs ≤ timeOfDayNs t ∧ timeOfDayNs t ≤ 19 * hourNs)

/-- The peak window the code actually implements: hour component in 7..9
or 17..19, i.e. time of day in [07:00, 10:00) ∪ [17:00, 20:00). -/
def inCodePeakWindow (t : ℤ) : Prop :=
  (7 * hourNs ≤ timeOfDayNs t ∧ timeOfDayNs t < 10 * hourNs) ∨
    (17 * hourNs ≤ timeOfDayNs t ∧ timeOfDayNs t < 20 * hourNs)

/-- Has a request on the given id whose status is no longer pending; the
invariant preserved by every engine operation. -/
def hasNonPendingRequest (s : EngineState) (id : ℕ) : Prop :=
  ∃ r, alookup s.requests id = some r ∧ r.status ≠ MatchStatus.pending

/-- The origin, used as concrete coordinates in witnesses. -/
noncomputable def zeroLocation : Location := ⟨0, 0, ""⟩

/-- A distance function that is identically zero, used to instantiate the
abstract haversine parameter in witnesses. -/
noncomputable def zeroDist : Location → Location → ℝ := fun _ _ => 0

/-- A concrete request used in witnesses: pending, no car-type
preference, 5 km maximum driver distance. -/
noncomputable def testRequest (t : ℤ) (pr : PriceRange) : MatchRequest :=
  { id := 1
    passengerId := 1
    pickupLocation := zeroLocation
    dropoffLocation := zeroLocation
    requestTime := t
    maxWaitTime := 0
    preferredCarType := ""
    maxDistance := 5
    priceRange := pr
    status := .pending
    createdAt := 0
    updatedAt := 0 }

/-- A concrete driver used in witnesses: motorbike, rating 5, 50
completed trips, last active at time 0, no preferred areas. -/
noncomputable def testDriver (did : ℕ) : Driver :=
  { id := did
    userId := did
    currentLocation := zeroLocation
    isAvailable := true
    carType := "motorbike"
    rating := 5
    completedTrips := 50
    lastActiveTime := 0
    maxDistance := 10
    preferredAreas := [] }

/-- A concrete match result used in witnesses. -/
noncomputable def testResult (rid did reqid : ℕ) (st : MatchResultStatus) : MatchResult :=
  { id := rid
    matchRequestId := reqid
    driverId := did
    score := 0
    estimatedDistance := 0
    estimatedTime := 0
    estimatedPrice := 0
    matchTime := 0
    status := st
    createdAt := 0 }

/-- A trip-creation collaborator that always fails. -/
def failingCreateTrip : TripData → Except Unit Trip := fun _ => .error ()

/-! ### Helper lemmas -/

/-- The minimum-fare floor of `EstimatePrice`, written as a `max`. -/
theorem fareFloor_eq_max (v : ℝ) : (if v < 20000 then (20000 : ℝ) else v) = max 20000 v := by
  rcases lt_or_le v 20000 with h | h
  · rw [if_pos h, max_eq_left h.le]
  · rw [if_neg (not_lt.mpr h), max_eq_right h]

/-- `filterDrivers` ignores the `algorithm` field of the configuration. -/
theorem filterDrivers_set_algorithm (dist : Location → Location → ℝ) (now : ℤ)
    (drivers : List Driver) (request : MatchRequest) (config : MatchingConfig) (x : String) :
    filterDrivers dist now drivers request { config with algorithm := x } =
      filterDrivers dist now drivers request config := by
  induction drivers with
  | nil => rfl
  | cons d rest ih =>
    dsimp only [filterDrivers]
    rw [ih]

/-! ### Claim C5 -/

/-- Claim C5: for every pair of points and vehicle-class string,
`EstimatePrice` returns `max(minimumFare, distance * 8000 * multiplier)`
with multiplier 1.0 for motorbike, 1.5 for car_4_seat, 2.0 for car_7_seat
and 1.5 for every other string, and returns exactly the 20,000 minimum
fare whenever the product falls below it.  The function is total (it never
errors on an unknown class). -/
theorem estimatePrice_spec (dist : Location → Location → ℝ) (a b : Location)
    (carType : String) :
    estimatePrice dist a b carType =
      max 20000 (dist a b * 8000 *
        (if carType = "motorbike" then (1.0 : ℝ)
         else if carType = "car_4_seat" then 1.5
         else if carType = "car_7_seat" then 2.0
         else 1.5)) ∧
    (dist a b * 8000 *
        (if carType = "motorbike" then (1.0 : ℝ)
         else if carType = "car_4_seat" then 1.5
         else if carType = "car_7_seat" then 2.0
         else 1.5) < 20000 →
      estimatePrice dist a b carType = 20000) := by
  have hmain : estimatePrice dist a b carType =
      max 20000 (dist a b * 8000 *
        (if carType = "motorbike" then (1.0 : ℝ)
         else if carType = "car_4_seat" then 1.5
         else if carType = "car_7_seat" then 2.0
         else 1.5)) := by
    simp only [estimatePrice, basePricePerKM, carTypeMotorbike, carTypeCar4Seat,
      carTypeCar7Seat]
    rw [fareFloor_eq_max]
    norm_num
  exact ⟨hmain, fun h => by rw [hmain, max_eq_left h.le]⟩

/-- Witness for C5: with the zero distance function and a motorbike, the
price floor applies and the fare is exactly 20,000. -/
theorem estimatePrice_spec_witness :
    estimatePrice zeroDist zeroLocation zeroLocation "motorbike" = 20000 := by
  apply (estimatePrice_spec zeroDist zeroLocation zeroLocation "motorbike").2
  norm_num [zeroDist]

/-! ### Claim C8 -/

/-- Claim C8 counterexample: at 09:30 UTC (a time of day outside both
claimed windows 07:00–09:00 and 17:00–19:00) the code still returns the
peak value 0.7, because it compares only the hour component with
`hour >= 7 && hour <= 9`. -/
theorem timePreference_outside_claimed_window :
    calculateTimePreference (testRequest (34200 * 1000000000) ⟨0, 0⟩) = 0.7 ∧
      ¬ inClaimedPeakWindow (34200 * 1000000000) := by
  constructor
  · simp only [calculateTimePreference, testRequest]
    rw [if_pos (by decide)]
  · simp only [inClaimedPeakWindow, timeOfDayNs, hourNs]
    decide

/-- Claim C8 (amended): the time-preference feature is 0.7 exactly when
the request's time of day lies in [07:00, 10:00) ∪ [17:00, 20:00) — the
whole hours 7, 8, 9, 17, 18 and 19 — and 1.0 at every other time. -/
theorem timePreference_peak_iff (request : MatchRequest) :
    (calculateTimePreference request = 0.7 ↔ inCodePeakWindow request.requestTime) ∧
    (calculateTimePreference request = 1.0 ↔ ¬ inCodePeakWindow request.requestTime) := by
  have hiff : ((timeHour request.requestTime ≥ 7 ∧ timeHour request.requestTime ≤ 9) ∨
      (timeHour request.requestTime ≥ 17 ∧ timeHour request.requestTime ≤ 19)) ↔
      inCodePeakWindow request.requestTime := by
    simp only [timeHour, timeOfDayNs, inCodePeakWindow, hourNs]
    omega
  simp only [calculateTimePreference]
  by_cases hc : (timeHour request.requestTime ≥ 7 ∧ timeHour request.requestTime ≤ 9) ∨
      (timeHour request.requestTime ≥ 17 ∧ timeHour request.requestTime ≤ 19)
  · rw [if_pos hc]
    refine ⟨iff_of_true rfl (hiff.mp hc), iff_of_false (by norm_num) ?_⟩
    exact fun hn => hn (hiff.mp hc)
  · rw [if_neg hc]
    exact ⟨iff_of_false (by norm_num) (fun hw => hc (hiff.mpr hw)),
      iff_of_true rfl (fun hw => hc (hiff.mpr hw))⟩

/-- Witness for C8 at 08:00 UTC: inside the code's peak window, the
feature is 0.7. -/
theorem timePreference_peak_iff_witness :
    calculateTimePreference (testRequest (8 * hourNs) ⟨0, 0⟩) = 0.7 := by
  apply (timePreference_peak_iff (testRequest (8 * hourNs) ⟨0, 0⟩)).1.mpr
  simp only [testRequest, inCodePeakWindow, timeOfDayNs, hourNs]
  decide

/-! ### Claim C10 -/

/-- Claim C10: with an unrecognized algorithm string the dispatch falls
through to the default branch, so `FindMatches` produces exactly the
result it produces with the weighted strategy; in particular it does not
fail. -/
theorem unknown_algorithm_eq_weighted (dist : Location → Location → ℝ) (now : ℤ)
    (request : MatchRequest) (config : MatchingConfig) (drivers : List Driver)
    (h : config.algorithm ∉ [algorithmNearest, algorithmWeighted, algorithmML, algorithmHybrid]) :
    findMatches dist now request config drivers =
      findMatches dist now request { config with algorithm := algorithmWeighted } drivers := by
  simp only [List.mem_cons, List.not_mem_nil, or_false, not_or] at h
  obtain ⟨h1, h2, h3, h4⟩ := h
  simp only [findMatches, filterDrivers_set_algorithm]
  rw [if_neg h1, if_neg h2, if_neg h3, if_neg h4]
  norm_num [algorithmNearest, algorithmWeighted]
  rw [if_neg (show ("weighted" : String) ≠ "nearest" by decide)]
  rfl

/-! ### Store lemmas -/

/-- Lookup in an appended store prefers the prefix. -/
theorem alookup_append_of_some {β : Type} {m : List (ℕ × β)} {k : ℕ} {v : β}
    (l : List (ℕ × β)) (h : alookup m k = some v) : alookup (m ++ l) k = some v := by
  induction m with
  | nil => exact absurd h (by simp [alookup])
  | cons p rest ih =>
    obtain ⟨k0, v0⟩ := p
    show (if k0 = k then some v0 else alookup (rest ++ l) k) = some v
    by_cases hk : k0 = k
    · rw [if_pos hk]
      have h0 : (if k0 = k then some v0 else alookup rest k) = some v := h
      rwa [if_pos hk] at h0
    · rw [if_neg hk]
      have h0 : (if k0 = k then some v0 else alookup rest k) = some v := h
      rw [if_neg hk] at h0
      exact ih h0

/-- Updating an existing key makes lookup return the new value. -/
theorem alookup_aupdate_self {β : Type} (m : List (ℕ × β)) (k : ℕ) (v : β)
    (h : (alookup m k).isSome) : alookup (aupdate m k v) k = some v := by
  induction m with
  | nil => simp [alookup] at h
  | cons p rest ih =>
    obtain ⟨k0, v0⟩ := p
    show alookup ((if k0 = k then (k, v) else (k0, v0)) :: aupdate rest k v) k = some v
    by_cases hk : k0 = k
    · rw [if_pos hk]
      show (if k = k then some v else alookup (aupdate rest k v) k) = some v
      rw [if_pos rfl]
    · rw [if_neg hk]
      show (if k0 = k then some v0 else alookup (aupdate rest k v) k) = some v
      rw [if_neg hk]
      apply ih
      have h0 : (if k0 = k then some v0 else alookup rest k).isSome := h
      rwa [if_neg hk] at h0

/-- Updating one key leaves lookups of other keys unchanged. -/
theorem alookup_aupdate_ne {β : Type} (m : List (ℕ × β)) (k k' : ℕ) (v : β)
    (h : k' ≠ k) : alookup (aupdate m k v) k' = alookup m k' := by
  induction m with
  | nil => rfl
  | cons p rest ih =>
    obtain ⟨k0, v0⟩ := p
    show alookup ((if k0 = k then (k, v) else (k0, v0)) :: aupdate rest k v) k' =
      (if k0 = k' then some v0 else alookup rest k')
    by_cases hk : k0 = k
    · rw [if_pos hk]
      show (if k = k' then some v else alookup (aupdate rest k v) k') = _
      rw [if_neg (fun hkk => h hkk.symm), if_neg (fun hkk : k0 = k' => h (hkk ▸ hk))]
      exact ih
    · rw [if_neg hk]
      show (if k0 = k' then some v0 else alookup (aupdate rest k v) k') = _
      by_cases hk0 : k0 = k'
      · rw [if_pos hk0, if_pos hk0]
      · rw [if_neg hk0, if_neg hk0]
        exact ih

/-- `applyAvailabilityFalse` never writes the request store. -/
theorem applyAvailabilityFalse_requests (s : EngineState) (d : ℕ) :
    (applyAvailabilityFalse s d).requests = s.requests := by
  unfold applyAvailabilityFalse
  cases alookup s.drivers d <;> rfl

/-- The success path of `AcceptMatch` never writes the request store. -/
theorem acceptApply_requests (s : EngineState) (driverId matchResultId : ℕ)
    (matchResult : MatchResult) (matchRequest : MatchRequest) (trip : Trip) :
    ((acceptApply s driverId matchResultId matchResult matchRequest trip).1).requests =
      s.requests := by
  show (applyNotifyPassenger
      (applyAvailabilityFalse (applyResultAccepted s matchResultId matchResult) driverId)
      matchRequest.passengerId matchResultId).requests = s.requests
  show (applyAvailabilityFalse (applyResultAccepted s matchResultId matchResult)
      driverId).requests = s.requests
  rw [applyAvailabilityFalse_requests]
  rfl

/-- `AcceptMatch` never writes the request store. -/
theorem acceptMatch_requests (s : EngineState) (driverId matchResultId : ℕ)
    (createTrip : TripData → Except Unit Trip) :
    ((acceptMatch s driverId matchResultId createTrip).1).requests = s.requests := by
  unfold acceptMatch
  repeat' split
  all_goals first
    | rfl
    | exact acceptApply_requests _ _ _ _ _ _

/-! ### Claim C2 -/

/-- Claim C2 counterexample: a result that exists, belongs to the caller,
but is already accepted makes `AcceptMatch` fail with `InvalidOperation`
(HTTP 400), not with `Conflict` (HTTP 409) as claimed. -/
theorem accept_nonpending_not_conflict :
    (acceptMatch ⟨[(1, testRequest 0 ⟨0, 0⟩)], [(1, testResult 1 1 1 .accepted)], [], []⟩
        1 1 failingCreateTrip).2 = Except.error ErrorCode.invalidOperation ∧
    ErrorCode.invalidOperation ≠ ErrorCode.conflict ∧
    httpStatusCode ErrorCode.invalidOperation = 400 ∧
    httpStatusCode ErrorCode.conflict = 409 := by
  refine ⟨?_, by decide, rfl, rfl⟩
  rfl

/-- Claim C2 (amended): `AcceptMatch` fails with `NotFound` when the
result does not exist, with `Unauthorized` when it belongs to another
driver, and with `InvalidOperation` (mapped to HTTP 400) — not `Conflict`
— when it is no longer pending; in every such case the state is
unchanged. -/
theorem accept_error_cases (s : EngineState) (driverId matchResultId : ℕ)
    (createTrip : TripData → Except Unit Trip) :
    (alookup s.results matchResultId = none →
      acceptMatch s driverId matchResultId createTrip = (s, .error .notFound)) ∧
    (∀ r, alookup s.results matchResultId = some r → r.driverId ≠ driverId →
      acceptMatch s driverId matchResultId createTrip = (s, .error .unauthorized)) ∧
    (∀ r, alookup s.results matchResultId = some r → r.driverId = driverId →
      r.status ≠ .pending →
      acceptMatch s driverId matchResultId createTrip = (s, .error .invalidOperation)) := by
  refine ⟨fun h => ?_, fun r hr hd => ?_, fun r hr hd hs => ?_⟩
  · simp only [acceptMatch, h]
  · simp only [acceptMatch, hr]
    rw [if_pos hd]
  · simp only [acceptMatch, hr]
    rw [if_neg (fun hne => hne hd), if_pos hs]

/-- Witness for C2 at three concrete stores: a missing result, a result
owned by another driver, and a rejected result. -/
theorem accept_error_cases_witness :
    acceptMatch ⟨[], [], [], []⟩ 1 1 failingCreateTrip =
      (⟨[], [], [], []⟩, .error .notFound) ∧
    acceptMatch ⟨[], [(1, testResult 1 2 1 .pending)], [], []⟩ 1 1 failingCreateTrip =
      (⟨[], [(1, testResult 1 2 1 .pending)], [], []⟩, .error .unauthorized) ∧
    acceptMatch ⟨[], [(1, testResult 1 1 1 .rejected)], [], []⟩ 1 1 failingCreateTrip =
      (⟨[], [(1, testResult 1 1 1 .rejected)], [], []⟩, .error .invalidOperation) :=
  ⟨(accept_error_cases _ 1 1 _).1 rfl,
    (accept_error_cases _ 1 1 _).2.1 (testResult 1 2 1 .pending) rfl (by decide),
    (accept_error_cases _ 1 1 _).2.2 (testResult 1 1 1 .rejected) rfl rfl (by decide)⟩

/-! ### Claim C3 -/

/-- Claim C3: when the result exists, belongs to the caller and is
pending, but the external trip creation fails, `AcceptMatch` returns an
error and leaves the state — in particular the result's pending status and
the driver's availability — completely unchanged. -/
theorem accept_trip_failure_state_unchanged (s : EngineState) (r : MatchResult)
    (req : MatchRequest) (driverId matchResultId : ℕ)
    (createTrip : TripData → Except Unit Trip)
    (hr : alookup s.results matchResultId = some r)
    (hd : r.driverId = driverId)
    (hp : r.status = .pending)
    (hreq : alookup s.requests r.matchRequestId = some req)
    (hct : ∀ td, createTrip td = .error ()) :
    acceptMatch s driverId matchResultId createTrip = (s, .error .internalError) := by
  simp only [acceptMatch, hr, hreq, hct]
  rw [if_neg (fun hne => hne hd), if_neg (fun hne => hne hp)]

/-- Witness for C3: concrete store with one pending result and its
request, and an always-failing trip collaborator. -/
theorem accept_trip_failure_state_unchanged_witness :
    acceptMatch ⟨[(1, testRequest 0 ⟨0, 0⟩)], [(1, testResult 1 1 1 .pending)], [], []⟩
        1 1 failingCreateTrip =
      (⟨[(1, testRequest 0 ⟨0, 0⟩)], [(1, testResult 1 1 1 .pending)], [], []⟩,
        .error .internalError) :=
  accept_trip_failure_state_unchanged _ (testResult 1 1 1 .pending) (testRequest 0 ⟨0, 0⟩)
    1 1 _ rfl rfl rfl rfl (fun _ => rfl)

/-! ### Claim C4 -/

/-- Claim C4: when the fetch succeeds but filtering leaves zero eligible
drivers, the background task persists zero result rows, transitions the
request to `Expired` (the task itself returns no error to any caller: it
is a total state transformer), and dispatches a no-match notification to
the passenger. -/
theorem empty_pool_expires_request (dist : Location → Location → ℝ) (now : ℤ)
    (s : EngineState) (request : MatchRequest) (config : MatchingConfig)
    (drivers : List Driver)
    (hempty : filterDrivers dist now drivers request config = [])
    (hpre : (alookup s.requests request.id).isSome) :
    (processMatchRequest dist now s request config (.ok drivers)).results = s.results ∧
    alookup (processMatchRequest dist now s request config (.ok drivers)).requests
        request.id = some { request with status := MatchStatus.expired } ∧
    (processMatchRequest dist now s request config (.ok drivers)).notifications =
      s.notifications ++ [Notification.matchTimeout request.passengerId request.id] := by
  have hfm : findMatches dist now request config drivers = [] := by
    simp [findMatches, hempty]
  have hred : processMatchRequest dist now s request config (.ok drivers) =
      { s with
        requests := aupdate s.requests request.id { request with status := .expired }
        notifications :=
          s.notifications ++ [.matchTimeout request.passengerId request.id] } := by
    simp [processMatchRequest, hfm]
  rw [hred]
  exact ⟨rfl, alookup_aupdate_self _ _ _ hpre, rfl⟩

/-- Witness for C4: an empty fetched pool filters to nothing; the request
expires and the timeout notification is dispatched. -/
theorem empty_pool_expires_request_witness :
    (processMatchRequest zeroDist 0 ⟨[(1, testRequest 0 ⟨0, 0⟩)], [], [], []⟩
        (testRequest 0 ⟨0, 0⟩) defaultMatchingConfig (.ok [])).results = [] ∧
    alookup (processMatchRequest zeroDist 0 ⟨[(1, testRequest 0 ⟨0, 0⟩)], [], [], []⟩
        (testRequest 0 ⟨0, 0⟩) defaultMatchingConfig (.ok [])).requests
        (testRequest 0 ⟨0, 0⟩).id =
      some { testRequest 0 ⟨0, 0⟩ with status := MatchStatus.expired } ∧
    (processMatchRequest zeroDist 0 ⟨[(1, testRequest 0 ⟨0, 0⟩)], [], [], []⟩
        (testRequest 0 ⟨0, 0⟩) defaultMatchingConfig (.ok [])).notifications =
      [Notification.matchTimeout (testRequest 0 ⟨0, 0⟩).passengerId (testRequest 0 ⟨0, 0⟩).id] :=
  empty_pool_expires_request zeroDist 0 _ (testRequest 0 ⟨0, 0⟩) defaultMatchingConfig []
    rfl rfl

/-! ### Claim C9 -/

/-- One engine operation preserves "this id holds a request whose status
is no longer pending": creation cannot overwrite an existing id,
background processing only writes the `matched` or `expired` status, and
acceptance never writes the request store. -/
theorem engineStep_preserves_nonpending (s : EngineState) (op : EngineOp) (id : ℕ)
    (h : hasNonPendingRequest s id) : hasNonPendingRequest (engineStep s op) id := by
  obtain ⟨r0, hl, hnp⟩ := h
  cases op with
  | createRequest dto newId now userExists =>
    cases userExists with
    | false => exact ⟨r0, hl, hnp⟩
    | true =>
      by_cases hsome : (alookup s.requests newId).isSome
      · simp only [engineStep, createMatchRequest, if_pos rfl, if_pos hsome]
        exact ⟨r0, hl, hnp⟩
      · simp only [engineStep, createMatchRequest, if_pos rfl, if_neg hsome]
        exact ⟨r0, alookup_append_of_some _ hl, hnp⟩
  | processRequest reqId dist now config fetched =>
    simp only [engineStep]
    cases hlr : alookup s.requests reqId with
    | none => exact ⟨r0, hl, hnp⟩
    | some request =>
      cases fetched with
      | error e => exact ⟨r0, hl, hnp⟩
      | ok drivers =>
        simp only [processMatchRequest]
        by_cases hemp : (findMatches dist now request config drivers).isEmpty
        · rw [if_pos hemp]
          by_cases hid : id = request.id
          · subst hid
            exact ⟨{ request with status := .expired },
              alookup_aupdate_self _ _ _ (by rw [hl]; rfl), by simp⟩
          · exact ⟨r0, by rw [alookup_aupdate_ne _ _ _ _ hid]; exact hl, hnp⟩
        · rw [if_neg hemp]
          by_cases hid : id = request.id
          · subst hid
            exact ⟨{ request with status := .matched, updatedAt := now },
              alookup_aupdate_self _ _ _ (by rw [hl]; rfl), by simp⟩
          · exact ⟨r0, by rw [alookup_aupdate_ne _ _ _ _ hid]; exact hl, hnp⟩
  | accept d rid ct =>
    refine ⟨r0, ?_, hnp⟩
    show alookup ((acceptMatch s d rid ct).1).requests id = some r0
    rw [acceptMatch_requests]
    exact hl

/-- Any sequence of engine operations preserves the non-pending
invariant. -/
theorem foldl_engineStep_preserves_nonpending (ops : List EngineOp) :
    ∀ (s : EngineState) (id : ℕ), hasNonPendingRequest s id →
      hasNonPendingRequest (ops.foldl engineStep s) id := by
  induction ops with
  | nil => exact fun s id h => h
  | cons op rest ih =>
    exact fun s id h => ih (engineStep s op) id (engineStep_preserves_nonpending s op id h)

/-- Claim C9: the request status is monotonic — once a stored request's
status is matched, expired or cancelled (anything but pending), no
reachable sequence of engine operations (request creation, background
processing, acceptance) ever stores a pending status under that id
again. -/
theorem request_status_monotonic (ops : List EngineOp) (s : EngineState) (id : ℕ)
    (r : MatchRequest) (hl : alookup s.requests id = some r)
    (hnp : r.status ≠ MatchStatus.pending) :
    ∀ r', alookup (ops.foldl engineStep s).requests id = some r' →
      r'.status ≠ MatchStatus.pending := by
  intro r' hl'
  obtain ⟨r0, hl0, hnp0⟩ := foldl_engineStep_preserves_nonpending ops s id ⟨r, hl, hnp⟩
  rw [hl'] at hl0
  exact (Option.some.inj hl0) ▸ hnp0

/-- Witness for C9: a store holding a matched request, stepped by a
background-processing operation for an id that was never created. -/
theorem request_status_monotonic_witness :
    ({ testRequest 0 ⟨0, 0⟩ with status := MatchStatus.matched } : MatchRequest).status ≠
      MatchStatus.pending :=
  request_status_monotonic
    [EngineOp.processRequest 2 zeroDist 0 defaultMatchingConfig (.error ())]
    ⟨[(1, { testRequest 0 ⟨0, 0⟩ with status := MatchStatus.matched })], [], [], []⟩ 1
    { testRequest 0 ⟨0, 0⟩ with status := MatchStatus.matched } rfl (by decide)
    { testRequest 0 ⟨0, 0⟩ with status := MatchStatus.matched } rfl

/-! ### Index-map lemmas -/

/-- Every element of `mapWithIndex f i l` is `f j a` for some `a ∈ l`. -/
theorem mem_mapWithIndex {α β : Type} {f : ℕ → α → β} {b : β} :
    ∀ {i : ℕ} {l : List α}, b ∈ mapWithIndex f i l → ∃ j a, a ∈ l ∧ b = f j a := by
  intro i l
  induction l generalizing i with
  | nil => intro h; cases h
  | cons x xs ih =>
    intro h
    rcases List.mem_cons.mp h with h | h
    · exact ⟨i, x, List.mem_cons_self _ _, h⟩
    · obtain ⟨j, a, ha, hb⟩ := ih h
      exact ⟨j, a, List.mem_cons_of_mem _ ha, hb⟩

/-- Mapping a projection that ignores the index over `mapWithIndex`. -/
theorem map_mapWithIndex {α β γ : Type} (f : ℕ → α → β) (g : β → γ) (h : α → γ)
    (hc : ∀ i a, g (f i a) = h a) :
    ∀ (i : ℕ) (l : List α), (mapWithIndex f i l).map g = l.map h := by
  intro i l
  induction l generalizing i with
  | nil => rfl
  | cons x xs ih => simp [mapWithIndex, hc, ih]

/-! ### Claim C6 -/

/-- The list `nearestAlgorithm` actually returns (with the stable
insertion-sort model of `sort.Slice`) is one of the outputs the
`sort.Slice` contract permits. -/
theorem nearestAlgorithm_mem_outputs (dist : Location → Location → ℝ) (now : ℤ)
    (request : MatchRequest) (drivers : List Driver) :
    nearestOutputs dist now request drivers (nearestAlgorithm dist now request drivers) := by
  refine ⟨(driverDistances dist request drivers).insertionSort
    (fun a b => a.distance ≤ b.distance), ⟨(List.perm_insertionSort _ _).symm, ?_⟩, rfl⟩
  haveI : IsTotal DriverDistance (fun a b => a.distance ≤ b.distance) :=
    ⟨fun a b => le_total _ _⟩
  haveI : IsTrans DriverDistance (fun a b => a.distance ≤ b.distance) :=
    ⟨fun _ _ _ h1 h2 => le_trans h1 h2⟩
  exact (List.sorted_insertionSort _ _).imp fun hab => not_lt.mpr hab

/-- Claim C6 counterexample: the tie-breaking part of the claim is false.
Two drivers at equal distance may come back in either order: the swapped
order satisfies the `sort.Slice` contract (Go documents `sort.Slice` as
not guaranteed to be stable), and it violates input-order
tie-breaking. -/
theorem nearest_ties_not_stable : ¬ nearestTiesStable := by
  intro hstable
  have h := hstable zeroDist 0 (testRequest 0 ⟨0, 0⟩) [testDriver 1, testDriver 2]
    (mapWithIndex
      (fun i dd => nearestResult zeroDist 0 (testRequest 0 ⟨0, 0⟩) i dd) 0
      [⟨testDriver 2, 0⟩, ⟨testDriver 1, 0⟩])
    ⟨[⟨testDriver 2, 0⟩, ⟨testDriver 1, 0⟩],
      ⟨List.Perm.swap _ _ _, by simp [List.pairwise_cons]⟩, rfl⟩
  simp only [mapWithIndex] at h
  rw [List.pairwise_cons] at h
  exact absurd (h.1 _ (List.mem_cons_self _ _) rfl) (by decide)

/-- Claim C6 (amended): in every output the `sort.Slice` contract permits
for `nearestAlgorithm`, each row scores its driver `1 / (1 + distance to
the pickup)` and the rows come back ordered ascending by that distance;
the order among equally distant drivers is unspecified. -/
theorem nearest_scores_and_ascending (dist : Location → Location → ℝ) (now : ℤ)
    (request : MatchRequest) (drivers : List Driver) (out : List MatchResult)
    (h : nearestOutputs dist now request drivers out) :
    (∀ r ∈ out, r.score = 1 / (1 + r.estimatedDistance) ∧
      ∃ d ∈ drivers, r.driverId = d.id ∧
        r.estimatedDistance = dist d.currentLocation request.pickupLocation) ∧
    (out.map MatchResult.estimatedDistance).Sorted (· ≤ ·) := by
  obtain ⟨sorted, ⟨hperm, hsort⟩, rfl⟩ := h
  constructor
  · intro r hr
    obtain ⟨j, dd, hdd, rfl⟩ := mem_mapWithIndex hr
    refine ⟨by norm_num [nearestResult], ?_⟩
    have hdd' : dd ∈ driverDistances dist request drivers := hperm.mem_iff.mpr hdd
    obtain ⟨d, hd, hdeq⟩ := List.mem_map.mp hdd'
    subst hdeq
    exact ⟨d, hd, rfl, rfl⟩
  · rw [map_mapWithIndex _ MatchResult.estimatedDistance DriverDistance.distance
      (fun i a => rfl) 0 sorted]
    exact hsort.map _ fun a b hn => not_lt.mp hn

/-- Witness for C6 (amended) at a concrete input: the model output of
`nearestAlgorithm` on one driver satisfies the contract, and its distance
column is ascending. -/
theorem nearest_scores_and_ascending_witness :
    ((nearestAlgorithm zeroDist 0 (testRequest 0 ⟨0, 0⟩) [testDriver 1]).map
      MatchResult.estimatedDistance).Sorted (· ≤ ·) :=
  (nearest_scores_and_ascending zeroDist 0 (testRequest 0 ⟨0, 0⟩) [testDriver 1] _
    (nearestAlgorithm_mem_outputs zeroDist 0 (testRequest 0 ⟨0, 0⟩) [testDriver 1])).2

/-! ### Accumulator-map lemmas for the hybrid strategy -/

/-- A successful lookup points at an entry of the list. -/
theorem alookup_mem {β : Type} (m : List (ℕ × β)) (k : ℕ) (v : β)
    (h : alookup m k = some v) : (k, v) ∈ m := by
  induction m with
  | nil => cases h
  | cons p rest ih =>
    obtain ⟨k0, v0⟩ := p
    have h0 : (if k0 = k then some v0 else alookup rest k) = some v := h
    by_cases hk : k0 = k
    · rw [if_pos hk] at h0
      subst hk
      rw [Option.some.inj h0]
      exact List.mem_cons_self _ _
    · rw [if_neg hk] at h0
      exact List.mem_cons_of_mem _ (ih h0)

/-- Looking up the key just accumulated into. -/
theorem alookup_upsertAdd_self (m : List (ℕ × ℝ)) (k : ℕ) (v : ℝ) :
    alookup (upsertAdd m k v) k = some ((alookup m k).getD 0 + v) := by
  induction m with
  | nil =>
    show (if k = k then some v else none) = some ((none : Option ℝ).getD 0 + v)
    rw [if_pos rfl, Option.getD_none, zero_add]
  | cons p rest ih =>
    obtain ⟨k0, v0⟩ := p
    by_cases hk : k0 = k
    · show alookup (if k0 = k then (k0, v0 + v) :: rest else (k0, v0) :: upsertAdd rest k v) k =
        some ((if k0 = k then some v0 else alookup rest k).getD 0 + v)
      rw [if_pos hk, if_pos hk]
      show (if k0 = k then some (v0 + v) else alookup rest k) = _
      rw [if_pos hk]
      rfl
    · show alookup (if k0 = k then (k0, v0 + v) :: rest else (k0, v0) :: upsertAdd rest k v) k =
        some ((if k0 = k then some v0 else alookup rest k).getD 0 + v)
      rw [if_neg hk, if_neg hk]
      show (if k0 = k then some v0 else alookup (upsertAdd rest k v) k) = _
      rw [if_neg hk]
      exact ih

/-- Accumulating into one key leaves other keys' values unchanged. -/
theorem alookup_upsertAdd_ne (m : List (ℕ × ℝ)) (k : ℕ) (v : ℝ) (k' : ℕ) (h : k' ≠ k) :
    alookup (upsertAdd m k v) k' = alookup m k' := by
  induction m with
  | nil =>
    show (if k = k' then some v else none) = none
    rw [if_neg fun he => h he.symm]
  | cons p rest ih =>
    obtain ⟨k0, v0⟩ := p
    by_cases hk : k0 = k
    · show alookup (if k0 = k then (k0, v0 + v) :: rest else (k0, v0) :: upsertAdd rest k v) k' =
        (if k0 = k' then some v0 else alookup rest k')
      rw [if_pos hk]
      show (if k0 = k' then some (v0 + v) else alookup rest k') = _
      rw [if_neg fun (he : k0 = k') => h (he ▸ hk), if_neg fun (he : k0 = k') => h (he ▸ hk)]
    · show alookup (if k0 = k then (k0, v0 + v) :: rest else (k0, v0) :: upsertAdd rest k v) k' =
        (if k0 = k' then some v0 else alookup rest k')
      rw [if_neg hk]
      show (if k0 = k' then some v0 else alookup (upsertAdd rest k v) k') = _
      by_cases hk0 : k0 = k'
      · rw [if_pos hk0, if_pos hk0]
      · rw [if_neg hk0, if_neg hk0]
        exact ih

/-- Looking up the key just stored into. -/
theorem alookup_upsertSet_self (m : List (ℕ × MatchResult)) (k : ℕ) (r : MatchResult) :
    alookup (upsertSet m k r) k = some r := by
  induction m with
  | nil =>
    show (if k = k then some r else none) = some r
    rw [if_pos rfl]
  | cons p rest ih =>
    obtain ⟨k0, r0⟩ := p
    by_cases hk : k0 = k
    · show alookup (if k0 = k then (k0, r) :: rest else (k0, r0) :: upsertSet rest k r) k = some r
      rw [if_pos hk]
      show (if k0 = k then some r else alookup rest k) = some r
      rw [if_pos hk]
    · show alookup (if k0 = k then (k0, r) :: rest else (k0, r0) :: upsertSet rest k r) k = some r
      rw [if_neg hk]
      show (if k0 = k then some r0 else alookup (upsertSet rest k r) k) = some r
      rw [if_neg hk]
      exact ih

/-- Storing under one key leaves other keys' values unchanged. -/
theorem alookup_upsertSet_ne (m : List (ℕ × MatchResult)) (k : ℕ) (r : MatchResult)
    (k' : ℕ) (h : k' ≠ k) : alookup (upsertSet m k r) k' = alookup m k' := by
  induction m with
  | nil =>
    show (if k = k' then some r else none) = none
    rw [if_neg fun he => h he.symm]
  | cons p rest ih =>
    obtain ⟨k0, r0⟩ := p
    by_cases hk : k0 = k
    · show alookup (if k0 = k then (k0, r) :: rest else (k0, r0) :: upsertSet rest k r) k' =
        (if k0 = k' then some r0 else alookup rest k')
      rw [if_pos hk]
      show (if k0 = k' then some r else alookup rest k') = _
      rw [if_neg fun (he : k0 = k') => h (he ▸ hk), if_neg fun (he : k0 = k') => h (he ▸ hk)]
    · show alookup (if k0 = k then (k0, r) :: rest else (k0, r0) :: upsertSet rest k r) k' =
        (if k0 = k' then some r0 else alookup rest k')
      rw [if_neg hk]
      show (if k0 = k' then some r0 else alookup (upsertSet rest k r) k') = _
      by_cases hk0 : k0 = k'
      · rw [if_pos hk0, if_pos hk0]
      · rw [if_neg hk0, if_neg hk0]
        exact ih

/-- An accumulation loop over rows none of which carry the key leaves its
value unchanged. -/
theorem alookup_addScores_not_mem (results : List MatchResult) (w : ℝ) :
    ∀ (m : List (ℕ × ℝ)) (did : ℕ), did ∉ results.map MatchResult.driverId →
      alookup (addScores m results w) did = alookup m did := by
  induction results with
  | nil => intro m did _; rfl
  | cons r rest ih =>
    intro m did h
    simp only [List.map_cons, List.mem_cons, not_or] at h
    show alookup (addScores (upsertAdd m r.driverId (r.score * w)) rest w) did = alookup m did
    rw [ih _ _ h.2, alookup_upsertAdd_ne _ _ _ _ h.1]

/-- An accumulation loop over rows with duplicate-free driver ids adds
exactly the one matching row's weighted score. -/
theorem alookup_addScores_uniq (results : List MatchResult) (w : ℝ) (r : MatchResult)
    (did : ℕ) (hnd : (results.map MatchResult.driverId).Nodup) (hr : r ∈ results)
    (hid : r.driverId = did) :
    ∀ m, alookup (addScores m results w) did = some ((alookup m did).getD 0 + r.score * w) := by
  subst hid
  induction results with
  | nil => cases hr
  | cons r0 rest ih =>
    intro m
    simp only [List.map_cons, List.nodup_cons] at hnd
    show alookup (addScores (upsertAdd m r0.driverId (r0.score * w)) rest w) r.driverId = _
    rcases List.mem_cons.mp hr with rfl | hr'
    · rw [alookup_addScores_not_mem rest w _ r.driverId hnd.1]
      exact alookup_upsertAdd_self m r.driverId (r.score * w)
    · have hne : r.driverId ≠ r0.driverId := fun he =>
        hnd.1 (by rw [← he]; exact List.mem_map_of_mem MatchResult.driverId hr')
      rw [ih hnd.2 hr' _, alookup_upsertAdd_ne _ _ _ _ hne]

/-- A store loop over rows none of which carry the key leaves its value
unchanged. -/
theorem alookup_setResults_not_mem (results : List MatchResult) :
    ∀ (m : List (ℕ × MatchResult)) (did : ℕ), did ∉ results.map MatchResult.driverId →
      alookup (setResults m results) did = alookup m did := by
  induction results with
  | nil => intro m did _; rfl
  | cons r rest ih =>
    intro m did h
    simp only [List.map_cons, List.mem_cons, not_or] at h
    show alookup (setResults (upsertSet m r.driverId r) rest) did = alookup m did
    rw [ih _ _ h.2, alookup_upsertSet_ne _ _ _ _ h.1]

/-- A store loop over rows with duplicate-free driver ids stores exactly
the matching row under its id. -/
theorem alookup_setResults_uniq (results : List MatchResult) (r : MatchResult) (did : ℕ)
    (hnd : (results.map MatchResult.driverId).Nodup) (hr : r ∈ results)
    (hid : r.driverId = did) :
    ∀ m, alookup (setResults m results) did = some r := by
  subst hid
  induction results with
  | nil => cases hr
  | cons r0 rest ih =>
    intro m
    simp only [List.map_cons, List.nodup_cons] at hnd
    show alookup (setResults (upsertSet m r0.driverId r0) rest) r.driverId = some r
    rcases List.mem_cons.mp hr with rfl | hr'
    · rw [alookup_setResults_not_mem rest _ r.driverId hnd.1]
      exact alookup_upsertSet_self m r.driverId r
    · exact ih hnd.2 hr' _

/-- Keys present after an accumulation step. -/
theorem mem_keys_upsertAdd (m : List (ℕ × ℝ)) (k : ℕ) (v : ℝ) (k' : ℕ) :
    k' ∈ (upsertAdd m k v).map Prod.fst ↔ k' ∈ m.map Prod.fst ∨ k' = k := by
  induction m with
  | nil =>
    show k' ∈ [(k, v)].map Prod.fst ↔ k' ∈ ([] : List (ℕ × ℝ)).map Prod.fst ∨ k' = k
    simp
  | cons p rest ih =>
    obtain ⟨k0, v0⟩ := p
    by_cases hk : k0 = k
    · show k' ∈ (if k0 = k then (k0, v0 + v) :: rest else
        (k0, v0) :: upsertAdd rest k v).map Prod.fst ↔ _
      rw [if_pos hk]
      subst hk
      simp only [List.map_cons, List.mem_cons]
      tauto
    · show k' ∈ (if k0 = k then (k0, v0 + v) :: rest else
        (k0, v0) :: upsertAdd rest k v).map Prod.fst ↔ _
      rw [if_neg hk]
      simp only [List.map_cons, List.mem_cons, ih]
      tauto

/-- Accumulating preserves duplicate-freedom of the keys. -/
theorem keys_upsertAdd_nodup (m : List (ℕ × ℝ)) (k : ℕ) (v : ℝ)
    (h : (m.map Prod.fst).Nodup) : ((upsertAdd m k v).map Prod.fst).Nodup := by
  induction m with
  | nil =>
    show ([(k, v)].map Prod.fst).Nodup
    simp
  | cons p rest ih =>
    obtain ⟨k0, v0⟩ := p
    simp only [List.map_cons, List.nodup_cons] at h
    by_cases hk : k0 = k
    · show ((if k0 = k then (k0, v0 + v) :: rest else
        (k0, v0) :: upsertAdd rest k v).map Prod.fst).Nodup
      rw [if_pos hk]
      simp only [List.map_cons, List.nodup_cons]
      exact ⟨h.1, h.2⟩
    · show ((if k0 = k then (k0, v0 + v) :: rest else
        (k0, v0) :: upsertAdd rest k v).map Prod.fst).Nodup
      rw [if_neg hk]
      simp only [List.map_cons, List.nodup_cons]
      refine ⟨fun hmem => ?_, ih h.2⟩
      rcases (mem_keys_upsertAdd rest k v k0).mp hmem with hin | he
      · exact h.1 hin
      · exact hk he

/-- A whole accumulation loop preserves duplicate-freedom of the keys. -/
theorem keys_addScores_nodup (results : List MatchResult) (w : ℝ) :
    ∀ m : List (ℕ × ℝ), (m.map Prod.fst).Nodup →
      ((addScores m results w).map Prod.fst).Nodup := by
  induction results with
  | nil => exact fun _ h => h
  | cons r rest ih =>
    intro m h
    show ((addScores (upsertAdd m r.driverId (r.score * w)) rest w).map Prod.fst).Nodup
    exact ih _ (keys_upsertAdd_nodup m r.driverId (r.score * w) h)

/-- `upsertSet` keeps the invariant that each stored row carries its key
as driver id. -/
theorem upsertSet_entry_key (k : ℕ) (r : MatchResult) (hk : r.driverId = k) :
    ∀ m : List (ℕ × MatchResult), (∀ p ∈ m, (p : ℕ × MatchResult).2.driverId = p.1) →
      ∀ p ∈ upsertSet m k r, (p : ℕ × MatchResult).2.driverId = p.1 := by
  intro m
  induction m with
  | nil =>
    intro _ p hp
    obtain rfl := List.mem_singleton.mp hp
    exact hk
  | cons q rest ih =>
    intro hm p hp
    obtain ⟨k0, r0⟩ := q
    by_cases hq : k0 = k
    · have hp' : p ∈ (if k0 = k then (k0, r) :: rest else (k0, r0) :: upsertSet rest k r) := hp
      rw [if_pos hq] at hp'
      rcases List.mem_cons.mp hp' with rfl | hmem
      · show r.driverId = k0
        rw [hq]
        exact hk
      · exact hm _ (List.mem_cons_of_mem _ hmem)
    · have hp' : p ∈ (if k0 = k then (k0, r) :: rest else (k0, r0) :: upsertSet rest k r) := hp
      rw [if_neg hq] at hp'
      rcases List.mem_cons.mp hp' with rfl | hmem
      · exact hm _ (List.mem_cons_self _ _)
      · exact ih (fun q hq0 => hm q (List.mem_cons_of_mem _ hq0)) p hmem

/-- Every row stored by a `driverResults` loop carries its key as driver
id. -/
theorem setResults_entry_key (results : List MatchResult) :
    ∀ m : List (ℕ × MatchResult), (∀ p ∈ m, (p : ℕ × MatchResult).2.driverId = p.1) →
      ∀ p ∈ setResults m results, (p : ℕ × MatchResult).2.driverId = p.1 := by
  induction results with
  | nil => exact fun _ hm => hm
  | cons r rest ih =>
    intro m hm
    show ∀ p ∈ setResults (upsertSet m r.driverId r) rest, _
    exact ih _ (upsertSet_entry_key r.driverId r rfl m hm)

/-- Dropping the first row when it does not carry the looked-up id. -/
theorem scoreOf_cons_of_ne (r0 : MatchResult) (rest : List MatchResult) (did : ℕ)
    (h : r0.driverId ≠ did) : scoreOf (r0 :: rest) did = scoreOf rest did := by
  unfold scoreOf
  rw [List.find?_cons_of_neg]
  simp [h]

/-- Taking the first row when it carries the looked-up id. -/
theorem scoreOf_cons_self (r0 : MatchResult) (rest : List MatchResult) (did : ℕ)
    (h : r0.driverId = did) : scoreOf (r0 :: rest) did = some r0.score := by
  unfold scoreOf
  rw [List.find?_cons_of_pos]
  · rfl
  · simp [h]

/-- With duplicate-free driver ids, `scoreOf` returns the score of the
(unique) row of the given driver. -/
theorem scoreOf_eq_of_mem_nodup (results : List MatchResult) (r : MatchResult) (did : ℕ)
    (hnd : (results.map MatchResult.driverId).Nodup) (hr : r ∈ results)
    (hid : r.driverId = did) : scoreOf results did = some r.score := by
  subst hid
  induction results with
  | nil => cases hr
  | cons r0 rest ih =>
    simp only [List.map_cons, List.nodup_cons] at hnd
    rcases List.mem_cons.mp hr with rfl | hr'
    · exact scoreOf_cons_self r rest r.driverId rfl
    · rw [scoreOf_cons_of_ne r0 rest r.driverId
        (fun he => hnd.1 (by rw [he]; exact List.mem_map_of_mem MatchResult.driverId hr'))]
      exact ih hnd.2 hr'

/-! ### Per-strategy row lemmas -/

/-- The nearest strategy emits exactly one row per input driver. -/
theorem nearestAlgorithm_ids (dist : Location → Location → ℝ) (now : ℤ)
    (request : MatchRequest) (drivers : List Driver) :
    ((nearestAlgorithm dist now request drivers).map MatchResult.driverId).Perm
      (drivers.map Driver.id) := by
  unfold nearestAlgorithm
  rw [map_mapWithIndex (fun i dd => nearestResult dist now request i dd) MatchResult.driverId
    (fun dd => dd.driver.id) (fun i a => rfl) 0]
  refine ((List.perm_insertionSort _ _).map _).trans ?_
  rw [driverDistances, List.map_map]
  exact List.Perm.refl _

/-- The weighted strategy emits exactly one row per input driver. -/
theorem weightedAlgorithm_ids (dist : Location → Location → ℝ) (now : ℤ)
    (request : MatchRequest) (drivers : List Driver) (config : MatchingConfig) :
    ((weightedAlgorithm dist now request drivers config).map MatchResult.driverId).Perm
      (drivers.map Driver.id) := by
  unfold weightedAlgorithm
  refine ((List.perm_insertionSort _ _).map _).trans ?_
  rw [map_mapWithIndex (fun i d => weightedResult dist now request config i d)
    MatchResult.driverId Driver.id (fun i a => rfl) 0]

/-- The feature-based strategy emits exactly one row per input driver. -/
theorem mlAlgorithm_ids (dist : Location → Location → ℝ) (now : ℤ)
    (request : MatchRequest) (drivers : List Driver) (config : MatchingConfig) :
    ((mlAlgorithm dist now request drivers config).map MatchResult.driverId).Perm
      (drivers.map Driver.id) := by
  unfold mlAlgorithm
  refine ((List.perm_insertionSort _ _).map _).trans ?_
  rw [map_mapWithIndex (fun i d => mlResult dist now request config i d)
    MatchResult.driverId Driver.id (fun i a => rfl) 0]

/-- Every weighted-strategy row carries some driver's id and its
`ScoreMatch` score. -/
theorem weightedAlgorithm_score (dist : Location → Location → ℝ) (now : ℤ)
    (request : MatchRequest) (drivers : List Driver) (config : MatchingConfig) :
    ∀ r ∈ weightedAlgorithm dist now request drivers config, ∃ d ∈ drivers,
      r.driverId = d.id ∧ r.score = scoreMatch dist request d config.criteria := by
  intro r hr
  unfold weightedAlgorithm at hr
  simp only [List.mem_insertionSort] at hr
  obtain ⟨j, d, hd, rfl⟩ := mem_mapWithIndex hr
  exact ⟨d, hd, rfl, rfl⟩

/-- Every feature-based row carries some driver's id and its
`calculateMLScore` score. -/
theorem mlAlgorithm_score (dist : Location → Location → ℝ) (now : ℤ)
    (request : MatchRequest) (drivers : List Driver) (config : MatchingConfig) :
    ∀ r ∈ mlAlgorithm dist now request drivers config, ∃ d ∈ drivers,
      r.driverId = d.id ∧
        r.score = calculateMLScore (extractFeatures dist now request d) config.criteria := by
  intro r hr
  unfold mlAlgorithm at hr
  simp only [List.mem_insertionSort] at hr
  obtain ⟨j, d, hd, rfl⟩ := mem_mapWithIndex hr
  exact ⟨d, hd, rfl, rfl⟩

/-- The score column of the hybrid output embeds into the sorted combined
scores. -/
theorem hybrid_filterMap_scores_sublist (dres : List (ℕ × MatchResult))
    (l : List (ℕ × ℝ)) :
    ((l.filterMap fun hs => (alookup dres hs.1).map fun r => { r with score := hs.2 }).map
      MatchResult.score).Sublist (l.map Prod.snd) := by
  induction l with
  | nil => simp
  | cons p rest ih =>
    cases h : alookup dres p.1 with
    | none =>
      simp only [List.filterMap_cons, h, Option.map_none']
      exact ih.trans (List.sublist_cons_self _ _)
    | some r =>
      simp only [List.filterMap_cons, h, Option.map_some', List.map_cons]
      exact List.Sublist.cons₂ _ ih

/-- The driver-id column of the hybrid output embeds into the sorted
keys. -/
theorem hybrid_filterMap_ids_sublist (dres : List (ℕ × MatchResult))
    (hkey : ∀ p ∈ dres, (p : ℕ × MatchResult).2.driverId = p.1) (l : List (ℕ × ℝ)) :
    ((l.filterMap fun hs => (alookup dres hs.1).map fun r => { r with score := hs.2 }).map
      MatchResult.driverId).Sublist (l.map Prod.fst) := by
  induction l with
  | nil => simp
  | cons p rest ih =>
    cases h : alookup dres p.1 with
    | none =>
      simp only [List.filterMap_cons, h, Option.map_none']
      exact ih.trans (List.sublist_cons_self _ _)
    | some r =>
      simp only [List.filterMap_cons, h, Option.map_some', List.map_cons]
      have hpr : ({ r with score := p.2 } : MatchResult).driverId = p.1 :=
        hkey (p.1, r) (alookup_mem _ _ _ h)
      rw [hpr]
      exact List.Sublist.cons₂ _ ih

/-! ### Claim C7 -/

/-- Claim C7: over a candidate list with duplicate-free driver ids, a
driver scored `s1` by the nearest strategy, `s2` by the weighted strategy
and `s3` by the feature-based strategy over that same list is assigned
`0.3*s1 + 0.4*s2 + 0.3*s3` by the hybrid strategy (exactly, in the
real-number idealization of float arithmetic), and the hybrid output is
ordered descending by its combined scores. -/
theorem hybrid_decomposition (dist : Location → Location → ℝ) (now : ℤ)
    (request : MatchRequest) (config : MatchingConfig) (drivers : List Driver)
    (did : ℕ) (s1 s2 s3 : ℝ)
    (hnd : (drivers.map Driver.id).Nodup)
    (hmem : did ∈ drivers.map Driver.id)
    (h1 : scoreOf (nearestAlgorithm dist now request drivers) did = some s1)
    (h2 : scoreOf (weightedAlgorithm dist now request drivers config) did = some s2)
    (h3 : scoreOf (mlAlgorithm dist now request drivers config) did = some s3) :
    scoreOf (hybridAlgorithm dist now request drivers config) did =
      some (0.3 * s1 + 0.4 * s2 + 0.3 * s3) ∧
    ((hybridAlgorithm dist now request drivers config).map MatchResult.score).Sorted
      (fun a b => b ≤ a) := by
  have hidsN := nearestAlgorithm_ids dist now request drivers
  have hidsW := weightedAlgorithm_ids dist now request drivers config
  have hidsM := mlAlgorithm_ids dist now request drivers config
  have hndN : ((nearestAlgorithm dist now request drivers).map MatchResult.driverId).Nodup :=
    hidsN.nodup_iff.mpr hnd
  have hndW : ((weightedAlgorithm dist now request drivers config).map
      MatchResult.driverId).Nodup := hidsW.nodup_iff.mpr hnd
  have hndM : ((mlAlgorithm dist now request drivers config).map
      MatchResult.driverId).Nodup := hidsM.nodup_iff.mpr hnd
  obtain ⟨rN, hrN, hidN⟩ : ∃ rN ∈ nearestAlgorithm dist now request drivers,
      rN.driverId = did := by
    obtain ⟨rN, h, he⟩ := List.mem_map.mp (hidsN.mem_iff.mpr hmem)
    exact ⟨rN, h, he⟩
  obtain ⟨rW, hrW, hidW⟩ : ∃ rW ∈ weightedAlgorithm dist now request drivers config,
      rW.driverId = did := by
    obtain ⟨rW, h, he⟩ := List.mem_map.mp (hidsW.mem_iff.mpr hmem)
    exact ⟨rW, h, he⟩
  obtain ⟨rM, hrM, hidM⟩ : ∃ rM ∈ mlAlgorithm dist now request drivers config,
      rM.driverId = did := by
    obtain ⟨rM, h, he⟩ := List.mem_map.mp (hidsM.mem_iff.mpr hmem)
    exact ⟨rM, h, he⟩
  have hsN : rN.score = s1 := by
    have h := scoreOf_eq_of_mem_nodup _ rN did hndN hrN hidN
    rw [h1] at h
    exact (Option.some.inj h).symm
  have hsW : rW.score = s2 := by
    have h := scoreOf_eq_of_mem_nodup _ rW did hndW hrW hidW
    rw [h2] at h
    exact (Option.some.inj h).symm
  have hsM : rM.score = s3 := by
    have h := scoreOf_eq_of_mem_nodup _ rM did hndM hrM hidM
    rw [h3] at h
    exact (Option.some.inj h).symm
  have e1 : alookup (addScores [] (nearestAlgorithm dist now request drivers) 0.3) did =
      some ((alookup [] did).getD 0 + rN.score * 0.3) :=
    alookup_addScores_uniq _ _ rN did hndN hrN hidN []
  have e2 : alookup (addScores (addScores [] (nearestAlgorithm dist now request drivers) 0.3)
        (weightedAlgorithm dist now request drivers config) 0.4) did =
      some ((alookup (addScores [] (nearestAlgorithm dist now request drivers) 0.3) did).getD 0 +
        rW.score * 0.4) :=
    alookup_addScores_uniq _ _ rW did hndW hrW hidW _
  have e3 : alookup (hybridDriverScores dist now request drivers config) did =
      some ((alookup (addScores (addScores [] (nearestAlgorithm dist now request drivers) 0.3)
          (weightedAlgorithm dist now request drivers config) 0.4) did).getD 0 +
        rM.score * 0.3) :=
    alookup_addScores_uniq _ _ rM did hndM hrM hidM _
  have hds : alookup (hybridDriverScores dist now request drivers config) did =
      some (0.3 * s1 + 0.4 * s2 + 0.3 * s3) := by
    rw [e3, e2, e1, hsN, hsW, hsM]
    simp only [Option.getD_some, alookup, Option.getD_none]
    congr 1
    ring
  have hdr : alookup (hybridDriverResults dist now request drivers config) did = some rM :=
    alookup_setResults_uniq _ rM did hndM hrM hidM _
  have hmemScore : (did, 0.3 * s1 + 0.4 * s2 + 0.3 * s3) ∈
      (hybridDriverScores dist now request drivers config).insertionSort
        (fun a b => b.2 ≤ a.2) := by
    simp only [List.mem_insertionSort]
    exact alookup_mem _ _ _ hds
  have hout : ({ rM with score := 0.3 * s1 + 0.4 * s2 + 0.3 * s3 } : MatchResult) ∈
      hybridAlgorithm dist now request drivers config := by
    unfold hybridAlgorithm
    refine List.mem_filterMap.mpr ⟨(did, 0.3 * s1 + 0.4 * s2 + 0.3 * s3), hmemScore, ?_⟩
    rw [hdr]
    rfl
  have hkeyinv : ∀ p ∈ hybridDriverResults dist now request drivers config,
      (p : ℕ × MatchResult).2.driverId = p.1 := by
    unfold hybridDriverResults
    exact setResults_entry_key _ _ (setResults_entry_key _ _ (setResults_entry_key _ _
      (fun p hp => absurd hp (List.not_mem_nil p))))
  have hkeysNodup : (((hybridDriverScores dist now request drivers config).insertionSort
      (fun a b => b.2 ≤ a.2)).map Prod.fst).Nodup := by
    have hsrc : ((hybridDriverScores dist now request drivers config).map Prod.fst).Nodup := by
      unfold hybridDriverScores
      exact keys_addScores_nodup _ _ _ (keys_addScores_nodup _ _ _
        (keys_addScores_nodup _ _ _ (by simp)))
    exact ((List.perm_insertionSort _ _).map Prod.fst).nodup_iff.mpr hsrc
  have houtNodup : ((hybridAlgorithm dist now request drivers config).map
      MatchResult.driverId).Nodup := by
    unfold hybridAlgorithm
    exact hkeysNodup.sublist (hybrid_filterMap_ids_sublist _ hkeyinv _)
  constructor
  · have h := scoreOf_eq_of_mem_nodup _ _ did houtNodup hout hidM
    exact h
  · have hsorted : ((hybridDriverScores dist now request drivers config).insertionSort
        (fun a b => b.2 ≤ a.2)).Sorted (fun a b => b.2 ≤ a.2) := by
      haveI : IsTotal (ℕ × ℝ) (fun a b => b.2 ≤ a.2) := ⟨fun a b => le_total b.2 a.2⟩
      haveI : IsTrans (ℕ × ℝ) (fun a b => b.2 ≤ a.2) :=
        ⟨fun _ _ _ hab hbc => le_trans hbc hab⟩
      exact List.sorted_insertionSort _ _
    have hsnd : ((((hybridDriverScores dist now request drivers config).insertionSort
        (fun a b => b.2 ≤ a.2))).map Prod.snd).Pairwise (fun x y => y ≤ x) :=
      hsorted.map _ (fun a b h => h)
    unfold hybridAlgorithm
    exact hsnd.sublist (hybrid_filterMap_scores_sublist _ _)

/-- Witness for C7 on one concrete driver: the hybrid score is the
weighted combination of the three per-strategy scores. -/
theorem hybrid_decomposition_witness :
    scoreOf (hybridAlgorithm zeroDist 0 (testRequest 0 ⟨0, 0⟩) [testDriver 1]
        defaultMatchingConfig) 1 =
      some (0.3 * 1 +
        0.4 * scoreMatch zeroDist (testRequest 0 ⟨0, 0⟩) (testDriver 1)
          defaultMatchingCriteria +
        0.3 * calculateMLScore (extractFeatures zeroDist 0 (testRequest 0 ⟨0, 0⟩)
          (testDriver 1)) defaultMatchingCriteria) := by
  refine (hybrid_decomposition zeroDist 0 (testRequest 0 ⟨0, 0⟩) defaultMatchingConfig
    [testDriver 1] 1 1
    (scoreMatch zeroDist (testRequest 0 ⟨0, 0⟩) (testDriver 1) defaultMatchingCriteria)
    (calculateMLScore (extractFeatures zeroDist 0 (testRequest 0 ⟨0, 0⟩) (testDriver 1))
      defaultMatchingCriteria)
    (by decide) (by decide) ?_ ?_ ?_).1
  · show scoreOf (nearestAlgorithm zeroDist 0 (testRequest 0 ⟨0, 0⟩) [testDriver 1]) 1 =
      some 1
    norm_num [nearestAlgorithm, driverDistances, List.insertionSort, List.orderedInsert,
      mapWithIndex, scoreOf, List.find?, nearestResult, zeroDist, testDriver]
  · show scoreOf (weightedAlgorithm zeroDist 0 (testRequest 0 ⟨0, 0⟩) [testDriver 1]
        defaultMatchingConfig) 1 =
      some (scoreMatch zeroDist (testRequest 0 ⟨0, 0⟩) (testDriver 1) defaultMatchingCriteria)
    norm_num [weightedAlgorithm, List.insertionSort, List.orderedInsert, mapWithIndex,
      scoreOf, List.find?, weightedResult, testDriver]
    rfl
  · show scoreOf (mlAlgorithm zeroDist 0 (testRequest 0 ⟨0, 0⟩) [testDriver 1]
        defaultMatchingConfig) 1 =
      some (calculateMLScore (extractFeatures zeroDist 0 (testRequest 0 ⟨0, 0⟩)
        (testDriver 1)) defaultMatchingCriteria)
    norm_num [mlAlgorithm, List.insertionSort, List.orderedInsert, mapWithIndex,
      scoreOf, List.find?, mlResult, testDriver]
    rfl

/-! ### Claim C1 -/

/-- Claim C1 (refuted; the code contradicts its own documented score
range 0–1): with the default weights, a filtered candidate at distance 0,
rating 5 and 50 completed trips, and a passenger price range of
200,000–210,000 VND, the estimated price (the 20,000 minimum fare) lies
below the passenger's minimum, the price signal extrapolates to 19, and
`FindMatches` under the weighted strategy returns the score 14/5 = 2.8,
which exceeds 1. -/
theorem weighted_score_exceeds_one :
    ((findMatches zeroDist 0 (testRequest 0 ⟨200000, 210000⟩) defaultMatchingConfig
        [testDriver 1]).map MatchResult.score) = [14 / 5] ∧ (1 : ℝ) < 14 / 5 := by
  have h1 : filterDrivers zeroDist 0 [testDriver 1] (testRequest 0 ⟨200000, 210000⟩)
      defaultMatchingConfig = [testDriver 1] := by
    norm_num [filterDrivers, testDriver, testRequest, zeroDist, defaultMatchingConfig,
      minuteNs]
  have h2 : scoreMatch zeroDist (testRequest 0 ⟨200000, 210000⟩) (testDriver 1)
      defaultMatchingCriteria = 14 / 5 := by
    norm_num [scoreMatch, estimateTime, estimatePrice, f64toInt, durationMinutes,
      testDriver, testRequest, zeroDist, zeroLocation, defaultMatchingCriteria,
      basePricePerKM, carTypeMotorbike, averageSpeedKMH]
  have hW : weightedAlgorithm zeroDist 0 (testRequest 0 ⟨200000, 210000⟩) [testDriver 1]
      defaultMatchingConfig =
      [weightedResult zeroDist 0 (testRequest 0 ⟨200000, 210000⟩) defaultMatchingConfig 0
        (testDriver 1)] := by
    simp [weightedAlgorithm, mapWithIndex, List.insertionSort]
  refine ⟨?_, by norm_num⟩
  simp only [findMatches, h1, List.isEmpty_cons, Bool.false_eq_true, if_false]
  rw [if_neg (show ¬ defaultMatchingConfig.algorithm = algorithmNearest by decide),
    if_pos (show defaultMatchingConfig.algorithm = algorithmWeighted by decide), hW]
  rw [if_neg (show ¬ [weightedResult zeroDist 0 (testRequest 0 ⟨200000, 210000⟩)
    defaultMatchingConfig 0 (testDriver 1)].length > defaultMatchingConfig.maxDrivers
    from by decide)]
  simp only [List.map_cons, List.map_nil, weightedResult]
  rw [show defaultMatchingConfig.criteria = defaultMatchingCriteria from rfl, h2]

/-- Witness for C10: the algorithm string "foo" is not recognized, and on
a concrete input the result equals the weighted strategy's. -/
theorem unknown_algorithm_eq_weighted_witness :
    findMatches zeroDist 0 (testRequest 0 ⟨0, 0⟩)
        { defaultMatchingConfig with algorithm := "foo" } [] =
      findMatches zeroDist 0 (testRequest 0 ⟨0, 0⟩)
        { defaultMatchingConfig with algorithm := algorithmWeighted } [] := by
  exact unknown_algorithm_eq_weighted zeroDist 0 (testRequest 0 ⟨0, 0⟩)
    { defaultMatchingConfig with algorithm := "foo" } [] (by decide)

end ZRide
